import Mathlib

/-!
Verification development for the ASF composite-mosaic engine
(`asf_tools/composite.py`).  The Python source is shallowly embedded:
pure computations become Lean functions over `ℚ`, IEEE division is made
explicit through an `Option ℚ` result (`none` models a non-finite float,
NaN or Inf), and `numpy.int8` accumulation is modelled by wrapping
integer arithmetic modulo 256.
-/

namespace Composite

/-! ## Per-pixel accumulation model

`make_composite` (composite.py, lines 211-247) accumulates, at every
output pixel, the contributions of each covering raster:

    areas[areas == 0] = 10000000
    outputs[...] += values * 1.0/areas
    weights[...] += 1.0/areas
    counts[...]  += 1
    ...
    outputs /= weights

For one fixed pixel this is a left fold over the list of (value, area)
samples of the rasters covering it. -/

/-- One covering raster's contribution at a fixed output pixel:
the raster's value sample and its area-map sample at that pixel. -/
structure Sample where
  value : ℚ
  area : ℚ
deriving DecidableEq, Repr

/-- composite.py line 227: `areas[areas == 0] = 10000000` — a zero area
sample is replaced by the sentinel constant 10000000 before its
reciprocal is taken. -/
def sanitizeArea (a : ℚ) : ℚ :=
  if a = 0 then 10000000 else a

/-- composite.py line 239: per-pixel accumulation
`outputs += values * 1.0/areas`, folded over the covering rasters in
processing order, starting from the `np.zeros` initialisation. -/
def accumOutputs (samples : List Sample) : ℚ :=
  samples.foldl (fun acc s => acc + s.value * (1 / sanitizeArea s.area)) 0

/-- composite.py line 240: per-pixel accumulation
`weights += 1.0/areas`, folded over the covering rasters. -/
def accumWeights (samples : List Sample) : ℚ :=
  samples.foldl (fun acc s => acc + 1 / sanitizeArea s.area) 0

/-- IEEE floating-point division with the non-finite outcomes made
explicit: dividing by zero yields `none` (NaN when the numerator is also
zero, ±Inf otherwise); otherwise the exact quotient. -/
def floatDiv (x y : ℚ) : Option ℚ :=
  if y = 0 then none else some (x / y)

/-- composite.py line 247: `outputs /= weights` — the final value of a
pixel is the accumulated weighted sum divided by the accumulated weight.
`none` models a NaN/Inf result. -/
def finalPixel (samples : List Sample) : Option ℚ :=
  floatDiv (accumOutputs samples) (accumWeights samples)

/-- composite.py line 213/241: the coverage counter of a pixel starts at
0 (`np.zeros(..., dtype=np.int8)`) and is incremented by 1, in `int8`
wrap-around arithmetic, once per covering raster. `int8Wrap` normalises
an integer into the signed 8-bit range [-128, 127] the way numpy's
modular arithmetic does. -/
def int8Wrap (n : ℤ) : ℤ :=
  (n + 128) % 256 - 128

/-- A single `counts += 1` step in `int8`. -/
def int8Succ (c : ℤ) : ℤ :=
  int8Wrap (c + 1)

/-- The coverage count of a pixel covered by `n` rasters: `n` int8
increments starting from 0. -/
def countAfter : Nat → ℤ
  | 0 => 0
  | n + 1 => int8Succ (countAfter n)

/-- composite.py line 252: `counts.astype(np.int16)` — the cast from
`int8` to `int16` is value-preserving on every in-range `int8` value. -/
def int16OfInt8 (c : ℤ) : ℤ :=
  (c + 32768) % 65536 - 32768

/-! ### Helper lemmas on the accumulation folds -/

theorem accumOutputs_eq_sum (samples : List Sample) :
    accumOutputs samples =
      (samples.map (fun s => s.value * (1 / sanitizeArea s.area))).sum := by
  suffices h : ∀ (c : ℚ), samples.foldl
      (fun acc s => acc + s.value * (1 / sanitizeArea s.area)) c =
      c + (samples.map (fun s => s.value * (1 / sanitizeArea s.area))).sum by
    simpa [accumOutputs] using h 0
  induction samples with
  | nil => intro c; simp
  | cons s rest ih =>
      intro c
      rw [List.foldl_cons, ih, List.map_cons, List.sum_cons]
      ring

theorem accumWeights_eq_sum (samples : List Sample) :
    accumWeights samples =
      (samples.map (fun s => 1 / sanitizeArea s.area)).sum := by
  suffices h : ∀ (c : ℚ), samples.foldl
      (fun acc s => acc + 1 / sanitizeArea s.area) c =
      c + (samples.map (fun s => 1 / sanitizeArea s.area)).sum by
    simpa [accumWeights] using h 0
  induction samples with
  | nil => intro c; simp
  | cons s rest ih =>
      intro c
      rw [List.foldl_cons, ih, List.map_cons, List.sum_cons]
      ring

theorem sanitizeArea_ne_zero (a : ℚ) : sanitizeArea a ≠ 0 := by
  unfold sanitizeArea
  split
  · norm_num
  · assumption

theorem sanitizeArea_of_ne_zero {a : ℚ} (h : a ≠ 0) : sanitizeArea a = a := by
  simp [sanitizeArea, h]

/-! ## Claim theorems C1-C3 -/

/-- C1: for a pixel covered by N rasters with nonzero area samples
`a_1..a_N` and values `v_1..v_N`, the final composite value written by
`make_composite` is `Σ(v_i/a_i) / Σ(1/a_i)`; in particular a pixel
covered by exactly one raster keeps that raster's raw value. -/
theorem makeComposite_weighted_mean (samples : List Sample)
    (ha : ∀ s ∈ samples, s.area ≠ 0)
    (hw : (samples.map (fun s => 1 / s.area)).sum ≠ 0) :
    finalPixel samples =
      some ((samples.map (fun s => s.value / s.area)).sum /
            (samples.map (fun s => 1 / s.area)).sum) ∧
    (∀ v a : ℚ, a ≠ 0 → finalPixel [⟨v, a⟩] = some v) := by
  constructor
  · have hmapw : samples.map (fun s => 1 / sanitizeArea s.area) =
        samples.map (fun s => 1 / s.area) :=
      List.map_congr_left fun s hs => by rw [sanitizeArea_of_ne_zero (ha s hs)]
    have hmapo : samples.map (fun s => s.value * (1 / sanitizeArea s.area)) =
        samples.map (fun s => s.value / s.area) :=
      List.map_congr_left fun s hs => by
        rw [sanitizeArea_of_ne_zero (ha s hs)]
        ring
    rw [finalPixel, accumOutputs_eq_sum, accumWeights_eq_sum, hmapw, hmapo,
      floatDiv, if_neg hw]
  · intro v a hva
    have hsan : sanitizeArea a = a := sanitizeArea_of_ne_zero hva
    have hinv : (1 : ℚ) / a ≠ 0 := by
      simpa using hva
    rw [finalPixel, accumOutputs, accumWeights]
    simp only [List.foldl_cons, List.foldl_nil, zero_add, hsan]
    rw [floatDiv, if_neg hinv]
    congr 1
    field_simp

/-- Witness for C1: two rasters with areas 1 and 4 and values 10 and 20
give (10/1 + 20/4) / (1/1 + 1/4) = 12, and a single raster with area 4
keeps its raw value 20. -/
theorem makeComposite_weighted_mean_witness :
    finalPixel [⟨10, 1⟩, ⟨20, 4⟩] = some 12 ∧ finalPixel [⟨20, 4⟩] = some 20 := by
  have h := makeComposite_weighted_mean [⟨10, 1⟩, ⟨20, 4⟩]
    (by intro s hs; simp at hs; rcases hs with rfl | rfl <;> norm_num)
    (by norm_num)
  constructor
  · rw [h.1]
    norm_num
  · exact h.2 20 4 (by norm_num)

/-- C2 (behaviour of the code at the claimed configuration): at a pixel
covered by no input raster the coverage count is 0, but `outputs /=
weights` evaluates `0.0 / 0.0`, producing NaN (modelled by `none`), not
the declared no-data value 0 — the code never maps the NaN to the
no-data sentinel before persisting. -/
theorem uncoveredPixel_count_zero_value_nan :
    countAfter 0 = 0 ∧ finalPixel [] = none ∧ finalPixel [] ≠ some 0 := by
  refine ⟨rfl, ?_, ?_⟩ <;>
    simp [finalPixel, accumOutputs, accumWeights, floatDiv]

/-- C3: a zero area sample is replaced by the sentinel 10000000 before
its reciprocal is taken; the sanitised area is never zero (so the
per-raster accumulation never divides by zero), and a zero-area pixel
contributes exactly `1/10000000` to the weight sum and
`v * (1/10000000)` to the value sum instead of corrupting them. -/
theorem zeroArea_sentinel (a v : ℚ) (samples : List Sample) :
    sanitizeArea a ≠ 0 ∧
    sanitizeArea 0 = 10000000 ∧
    accumWeights (⟨v, 0⟩ :: samples) =
      1 / 10000000 + accumWeights samples ∧
    accumOutputs (⟨v, 0⟩ :: samples) =
      v * (1 / 10000000) + accumOutputs samples := by
  refine ⟨sanitizeArea_ne_zero a, rfl, ?_, ?_⟩
  · rw [accumWeights_eq_sum, accumWeights_eq_sum, List.map_cons, List.sum_cons]
    norm_num [sanitizeArea]
  · rw [accumOutputs_eq_sum, accumOutputs_eq_sum, List.map_cons, List.sum_cons]
    norm_num [sanitizeArea]

/-! ## Coverage-count overflow (C10) -/

theorem countAfter_closed (n : Nat) :
    countAfter n = ((n : ℤ) + 128) % 256 - 128 := by
  induction n with
  | zero => decide
  | succ n ih =>
      rw [countAfter, ih, int8Succ, int8Wrap]
      push_cast
      omega

/-- C10: the coverage grid is accumulated in `int8` (line 213,
`np.zeros(..., dtype=np.int8)`) though persisted as `int16` (line 252,
`counts.astype(np.int16)`); a pixel covered by more than 127 rasters
overflows: its stored count differs from the true count, the cast to
`int16` preserves the wrapped value, while any count up to 127 is
recorded exactly. -/
theorem counts_int8_overflow (n : Nat) (h : 127 < n) :
    countAfter n ≠ (n : ℤ) ∧
    int16OfInt8 (countAfter n) = countAfter n ∧
    ∀ m : Nat, m ≤ 127 → countAfter m = (m : ℤ) := by
  refine ⟨?_, ?_, ?_⟩
  · rw [countAfter_closed]
    omega
  · rw [countAfter_closed, int16OfInt8]
    omega
  · intro m hm
    rw [countAfter_closed]
    omega

/-- Witness for C10: 128 covering rasters wrap the int8 counter, and
the int16 cast keeps the wrapped value. -/
theorem counts_int8_overflow_witness :
    (127 : Nat) < 128 ∧
    countAfter 128 ≠ (128 : ℤ) ∧
    int16OfInt8 (countAfter 128) = countAfter 128 :=
  ⟨by norm_num, (counts_int8_overflow 128 (by norm_num)).1,
    (counts_int8_overflow 128 (by norm_num)).2.1⟩

/-! ## Extent union (C6, C7)

`get_full_extent` (composite.py lines 53-68) folds min/max over the
corner records, starting from the hard-coded initial values
`min_ulx = 50000000`, `max_lrx = 0`, `max_uly = 0`, `min_lry = 50000000`,
and returns `(min_ulx, max_lrx, max_uly, min_lry)`. -/

/-- One corner record, as built at composite.py lines 198-201:
`[fi, ulx, lrx, lry, uly]`. -/
structure Corner where
  fi : String
  ulx : ℚ
  lrx : ℚ
  lry : ℚ
  uly : ℚ
deriving DecidableEq, Repr

/-- The body of the loop at composite.py lines 60-65: each corner
updates the four running extremes (`min(ulx, min_ulx)`,
`max(lrx, max_lrx)`, `max(uly, max_uly)`, `min(lry, min_lry)`); the
accumulator is kept in the function's return order
`(min_ulx, max_lrx, max_uly, min_lry)`. -/
def extentStep (acc : ℚ × ℚ × ℚ × ℚ) (c : Corner) : ℚ × ℚ × ℚ × ℚ :=
  (min c.ulx acc.1, max c.lrx acc.2.1, max c.uly acc.2.2.1, min c.lry acc.2.2.2)

/-- composite.py lines 53-68: fold of `extentStep` from the hard-coded
initialisation `(50000000, 0, 0, 50000000)`. -/
def get_full_extent (corners : List Corner) : ℚ × ℚ × ℚ × ℚ :=
  corners.foldl extentStep (50000000, 0, 0, 50000000)

/-- Python `int()` truncates toward zero. -/
def pyInt (q : ℚ) : ℤ :=
  if q < 0 then ⌈q⌉ else ⌊q⌋

/-- composite.py lines 206-207: the output grid dimensions
`x_pixels = abs(int((ulx - lrx) / pixel_size_x))`,
`y_pixels = abs(int((lry - uly) / pixel_size_y))`. -/
def outputDims (ulx lrx uly lry psx psy : ℚ) : Nat × Nat :=
  ((pyInt ((ulx - lrx) / psx)).natAbs, (pyInt ((lry - uly) / psy)).natAbs)

/-- The four components of the extent fold evolve independently. -/
theorem get_full_extent_components (corners : List Corner) : ∀ a b e d : ℚ,
    corners.foldl extentStep (a, b, e, d) =
      (corners.foldl (fun m c => min c.ulx m) a,
       corners.foldl (fun m c => max c.lrx m) b,
       corners.foldl (fun m c => max c.uly m) e,
       corners.foldl (fun m c => min c.lry m) d) := by
  induction corners with
  | nil => intro a b e d; rfl
  | cons c cs ih =>
      intro a b e d
      simp only [List.foldl_cons, extentStep]
      exact ih _ _ _ _

theorem foldl_min_bounds {α : Type} (f : α → ℚ) (l : List α) : ∀ a : ℚ,
    (l.foldl (fun m c => min (f c) m) a = a ∨
      ∃ c ∈ l, l.foldl (fun m c => min (f c) m) a = f c) ∧
    l.foldl (fun m c => min (f c) m) a ≤ a ∧
    ∀ c ∈ l, l.foldl (fun m c => min (f c) m) a ≤ f c := by
  induction l with
  | nil => intro a; refine ⟨Or.inl rfl, le_refl a, ?_⟩; intro c hc; cases hc
  | cons c cs ih =>
      intro a
      obtain ⟨hat, hle, hall⟩ := ih (min (f c) a)
      rw [List.foldl_cons]
      refine ⟨?_, ?_, ?_⟩
      · rcases hat with h | ⟨d, hd, hdeq⟩
        · rcases min_cases (f c) a with ⟨hmin, -⟩ | ⟨hmin, -⟩
          · exact Or.inr ⟨c, List.mem_cons_self c cs, by rw [h, hmin]⟩
          · exact Or.inl (by rw [h, hmin])
        · exact Or.inr ⟨d, List.mem_cons_of_mem c hd, hdeq⟩
      · exact le_trans hle (min_le_right _ _)
      · intro d hd
        rcases List.mem_cons.mp hd with rfl | hd
        · exact le_trans hle (min_le_left _ _)
        · exact hall d hd

theorem foldl_max_bounds {α : Type} (f : α → ℚ) (l : List α) : ∀ a : ℚ,
    (l.foldl (fun m c => max (f c) m) a = a ∨
      ∃ c ∈ l, l.foldl (fun m c => max (f c) m) a = f c) ∧
    a ≤ l.foldl (fun m c => max (f c) m) a ∧
    ∀ c ∈ l, f c ≤ l.foldl (fun m c => max (f c) m) a := by
  induction l with
  | nil => intro a; refine ⟨Or.inl rfl, le_refl a, ?_⟩; intro c hc; cases hc
  | cons c cs ih =>
      intro a
      obtain ⟨hat, hle, hall⟩ := ih (max (f c) a)
      rw [List.foldl_cons]
      refine ⟨?_, ?_, ?_⟩
      · rcases hat with h | ⟨d, hd, hdeq⟩
        · rcases max_cases (f c) a with ⟨hmax, -⟩ | ⟨hmax, -⟩
          · exact Or.inr ⟨c, List.mem_cons_self c cs, by rw [h, hmax]⟩
          · exact Or.inl (by rw [h, hmax])
        · exact Or.inr ⟨d, List.mem_cons_of_mem c hd, hdeq⟩
      · exact le_trans (le_max_right _ _) hle
      · intro d hd
        rcases List.mem_cons.mp hd with rfl | hd
        · exact le_trans (le_max_left _ _) hle
        · exact hall d hd

/-- A min-fold whose initial value dominates every element attains the
exact minimum of the listed values. -/
theorem foldl_min_exact {α : Type} (f : α → ℚ) (l : List α) (a : ℚ)
    (hne : l ≠ []) (hb : ∀ c ∈ l, f c ≤ a) :
    l.foldl (fun m c => min (f c) m) a ∈ l.map f ∧
    ∀ c ∈ l, l.foldl (fun m c => min (f c) m) a ≤ f c := by
  obtain ⟨hat, hle, hall⟩ := foldl_min_bounds f l a
  refine ⟨?_, hall⟩
  rcases hat with h | ⟨d, hd, hdeq⟩
  · obtain ⟨c0, hc0⟩ : ∃ c0, c0 ∈ l := by
      cases l with
      | nil => exact absurd rfl hne
      | cons x xs => exact ⟨x, List.mem_cons_self x xs⟩
    have h1 : l.foldl (fun m c => min (f c) m) a ≤ f c0 := hall c0 hc0
    have h2 : f c0 ≤ l.foldl (fun m c => min (f c) m) a := by
      rw [h]; exact hb c0 hc0
    have : l.foldl (fun m c => min (f c) m) a = f c0 := le_antisymm h1 h2
    rw [this]
    exact List.mem_map_of_mem f hc0
  · rw [hdeq]
    exact List.mem_map_of_mem f hd

/-- A max-fold whose initial value is below every element attains the
exact maximum of the listed values. -/
theorem foldl_max_exact {α : Type} (f : α → ℚ) (l : List α) (a : ℚ)
    (hne : l ≠ []) (hb : ∀ c ∈ l, a ≤ f c) :
    l.foldl (fun m c => max (f c) m) a ∈ l.map f ∧
    ∀ c ∈ l, f c ≤ l.foldl (fun m c => max (f c) m) a := by
  obtain ⟨hat, hle, hall⟩ := foldl_max_bounds f l a
  refine ⟨?_, hall⟩
  rcases hat with h | ⟨d, hd, hdeq⟩
  · obtain ⟨c0, hc0⟩ : ∃ c0, c0 ∈ l := by
      cases l with
      | nil => exact absurd rfl hne
      | cons x xs => exact ⟨x, List.mem_cons_self x xs⟩
    have h1 : f c0 ≤ l.foldl (fun m c => max (f c) m) a := hall c0 hc0
    have h2 : l.foldl (fun m c => max (f c) m) a ≤ f c0 := by
      rw [h]; exact hb c0 hc0
    have : l.foldl (fun m c => max (f c) m) a = f c0 := le_antisymm h2 h1
    rw [this]
    exact List.mem_map_of_mem f hc0
  · rw [hdeq]
    exact List.mem_map_of_mem f hd

/-- C6 fails as universally stated: the fold starts from the hard-coded
sentinels (50000000, 0, 0, 50000000), so a single corner record with
`ulx = 60000000` yields first component `min 60000000 50000000 =
50000000`, not the minimum 60000000 of the listed `ulx` values. -/
theorem get_full_extent_counterexample :
    (get_full_extent [⟨"f1", 60000000, 70000000, 60000000, 70000000⟩]).1
      = 50000000 ∧
    (get_full_extent [⟨"f1", 60000000, 70000000, 60000000, 70000000⟩]).1
      ≠ 60000000 := by
  constructor <;> norm_num [get_full_extent, extentStep]

/-- C6 (amended): for a non-empty list of corner records whose
coordinates do not escape the sentinel initialisation — every `ulx` and
`lry` at most 50000000 and every `lrx` and `uly` at least 0 —
`get_full_extent` returns exactly (min of all `ulx`, max of all `lrx`,
max of all `uly`, min of all `lry`): each component is attained by a
listed record and bounds all of them. -/
theorem get_full_extent_union (corners : List Corner) (hne : corners ≠ [])
    (hulx : ∀ c ∈ corners, c.ulx ≤ 50000000)
    (hlrx : ∀ c ∈ corners, 0 ≤ c.lrx)
    (huly : ∀ c ∈ corners, 0 ≤ c.uly)
    (hlry : ∀ c ∈ corners, c.lry ≤ 50000000) :
    ((get_full_extent corners).1 ∈ corners.map Corner.ulx ∧
      ∀ c ∈ corners, (get_full_extent corners).1 ≤ c.ulx) ∧
    ((get_full_extent corners).2.1 ∈ corners.map Corner.lrx ∧
      ∀ c ∈ corners, c.lrx ≤ (get_full_extent corners).2.1) ∧
    ((get_full_extent corners).2.2.1 ∈ corners.map Corner.uly ∧
      ∀ c ∈ corners, c.uly ≤ (get_full_extent corners).2.2.1) ∧
    ((get_full_extent corners).2.2.2 ∈ corners.map Corner.lry ∧
      ∀ c ∈ corners, (get_full_extent corners).2.2.2 ≤ c.lry) := by
  have hc := get_full_extent_components corners 50000000 0 0 50000000
  unfold get_full_extent at *
  rw [hc]
  exact ⟨foldl_min_exact Corner.ulx corners 50000000 hne hulx,
    foldl_max_exact Corner.lrx corners 0 hne hlrx,
    foldl_max_exact Corner.uly corners 0 hne huly,
    foldl_min_exact Corner.lry corners 50000000 hne hlry⟩

/-- Witness for C6: two concrete corner records within the sentinel
range; each component of the union box is a coordinate of one of the
listed records. -/
theorem get_full_extent_union_witness :
    (get_full_extent [⟨"a", 1, 5, 2, 6⟩, ⟨"b", 0, 7, 1, 8⟩]).1
        ∈ ([⟨"a", 1, 5, 2, 6⟩, ⟨"b", 0, 7, 1, 8⟩] : List Corner).map Corner.ulx ∧
    (get_full_extent [⟨"a", 1, 5, 2, 6⟩, ⟨"b", 0, 7, 1, 8⟩]).2.1
        ∈ ([⟨"a", 1, 5, 2, 6⟩, ⟨"b", 0, 7, 1, 8⟩] : List Corner).map Corner.lrx ∧
    (get_full_extent [⟨"a", 1, 5, 2, 6⟩, ⟨"b", 0, 7, 1, 8⟩]).2.2.1
        ∈ ([⟨"a", 1, 5, 2, 6⟩, ⟨"b", 0, 7, 1, 8⟩] : List Corner).map Corner.uly ∧
    (get_full_extent [⟨"a", 1, 5, 2, 6⟩, ⟨"b", 0, 7, 1, 8⟩]).2.2.2
        ∈ ([⟨"a", 1, 5, 2, 6⟩, ⟨"b", 0, 7, 1, 8⟩] : List Corner).map Corner.lry := by
  have h := get_full_extent_union [⟨"a", 1, 5, 2, 6⟩, ⟨"b", 0, 7, 1, 8⟩]
    (by simp)
    (by intro c hc; simp at hc; rcases hc with rfl | rfl <;> norm_num)
    (by intro c hc; simp at hc; rcases hc with rfl | rfl <;> norm_num)
    (by intro c hc; simp at hc; rcases hc with rfl | rfl <;> norm_num)
    (by intro c hc; simp at hc; rcases hc with rfl | rfl <;> norm_num)
  exact ⟨h.1.1, h.2.1.1, h.2.2.1.1, h.2.2.2.1⟩

/-- C7: `get_full_extent` is invariant under permutation of the corner
records, and hence so are the output grid dimensions derived from it at
composite.py lines 206-207. -/
theorem get_full_extent_perm_invariant (l₁ l₂ : List Corner) (psx psy : ℚ)
    (h : l₁.Perm l₂) :
    get_full_extent l₁ = get_full_extent l₂ ∧
    outputDims (get_full_extent l₁).1 (get_full_extent l₁).2.1
        (get_full_extent l₁).2.2.1 (get_full_extent l₁).2.2.2 psx psy =
      outputDims (get_full_extent l₂).1 (get_full_extent l₂).2.1
        (get_full_extent l₂).2.2.1 (get_full_extent l₂).2.2.2 psx psy := by
  have hmain : get_full_extent l₁ = get_full_extent l₂ := by
    unfold get_full_extent
    refine h.foldl_eq' ?_ (50000000, 0, 0, 50000000)
    intro x _ y _ z
    unfold extentStep
    refine Prod.ext ?_ (Prod.ext ?_ (Prod.ext ?_ ?_)) <;> simp only []
    · exact min_left_comm y.ulx x.ulx z.1
    · exact max_left_comm y.lrx x.lrx z.2.1
    · exact max_left_comm y.uly x.uly z.2.2.1
    · exact min_left_comm y.lry x.lry z.2.2.2
  exact ⟨hmain, by rw [hmain]⟩

/-- Witness for C7: swapping two concrete corner records leaves the
extent and the derived grid dimensions unchanged. -/
theorem get_full_extent_perm_invariant_witness :
    get_full_extent [⟨"b", 0, 7, 1, 8⟩, ⟨"a", 1, 5, 2, 6⟩] =
      get_full_extent [⟨"a", 1, 5, 2, 6⟩, ⟨"b", 0, 7, 1, 8⟩] ∧
    outputDims (get_full_extent [⟨"b", 0, 7, 1, 8⟩, ⟨"a", 1, 5, 2, 6⟩]).1
        (get_full_extent [⟨"b", 0, 7, 1, 8⟩, ⟨"a", 1, 5, 2, 6⟩]).2.1
        (get_full_extent [⟨"b", 0, 7, 1, 8⟩, ⟨"a", 1, 5, 2, 6⟩]).2.2.1
        (get_full_extent [⟨"b", 0, 7, 1, 8⟩, ⟨"a", 1, 5, 2, 6⟩]).2.2.2 30 (-30) =
      outputDims (get_full_extent [⟨"a", 1, 5, 2, 6⟩, ⟨"b", 0, 7, 1, 8⟩]).1
        (get_full_extent [⟨"a", 1, 5, 2, 6⟩, ⟨"b", 0, 7, 1, 8⟩]).2.1
        (get_full_extent [⟨"a", 1, 5, 2, 6⟩, ⟨"b", 0, 7, 1, 8⟩]).2.2.1
        (get_full_extent [⟨"a", 1, 5, 2, 6⟩, ⟨"b", 0, 7, 1, 8⟩]).2.2.2 30 (-30) :=
  get_full_extent_perm_invariant [⟨"b", 0, 7, 1, 8⟩, ⟨"a", 1, 5, 2, 6⟩]
    [⟨"a", 1, 5, 2, 6⟩, ⟨"b", 0, 7, 1, 8⟩] 30 (-30)
    (List.Perm.swap (⟨"a", 1, 5, 2, 6⟩ : Corner) (⟨"b", 0, 7, 1, 8⟩ : Corner) [])

/-! ## Common-grid reprojection (C5, C8, C9)

`reproject_to_median_utm` (composite.py lines 116-167).  File I/O and
the GDAL warps are abstracted into per-file decisions; the numeric
metadata a file contributes is exactly what `saa.read_gdal_file_geo`
and the projection string provide. -/

/-- Metadata of one input raster as the source reads it:
`x_size`/`y_size` are the raster's dimensions in samples
(`RasterXSize`/`RasterYSize`, the `x, y` of
`saa.read_gdal_file_geo`), `pixel_width` is geotransform element 1
(`trans[1]`), and `zone` is the UTM zone parsed from the projection
string (`None` when the projection encodes no recognisable zone). -/
structure RasterInfo where
  x_size : ℚ
  y_size : ℚ
  pixel_width : ℚ
  zone : Option ℤ
deriving DecidableEq, Repr

/-- composite.py lines 71-81 (`get_max_pixel_size`): fold of
`pix_size = max(pix_size, t1[1])` from the initial value -999.
(The source builds `Exception("No valid pixel sizes found")` when the
fold is left at -999 but never raises it, so -999 is simply
returned for an empty file list.) -/
def get_max_pixel_size (files : List RasterInfo) : ℚ :=
  files.foldl (fun p f => max p f.pixel_width) (-999)

/-- composite.py lines 124-128: `if resolution: pix_size = resolution
else: pix_size = get_max_pixel_size(files)`.  Python truthiness: the
explicit branch is taken only when a resolution is present *and*
nonzero; `None` and `0.0` both fall through to the maximum. -/
def pick_pix_size (resolution : Option ℚ) (files : List RasterInfo) : ℚ :=
  match resolution with
  | some r => if r ≠ 0 then r else get_max_pixel_size files
  | none => get_max_pixel_size files

/-- composite.py lines 106-113 (`parse_zones`): collect the zones that
parse (`if zone:` — Python truthiness also drops a zone equal to 0),
converted through the `np.int8` array construction. -/
def parse_zones (files : List RasterInfo) : List ℤ :=
  files.filterMap (fun f =>
    match f.zone with
    | none => none
    | some z => if z ≠ 0 then some (int8Wrap z) else none)

/-- `np.median`: middle element of the sorted values, or the mean of the
two middle elements for an even count.  (`np.median` of an empty array
is NaN; that degenerate case, unreachable for any claim here, is
modelled as 0.) -/
def npMedian (l : List ℤ) : ℚ :=
  let s := (l.map (fun z => (z : ℚ))).insertionSort (· ≤ ·)
  let n := s.length
  if n = 0 then 0
  else if n % 2 = 1 then s.getD (n / 2) 0
  else (s.getD (n / 2 - 1) 0 + s.getD (n / 2) 0) / 2

/-- The per-file outcome of the reprojection loop: `warp` is the
zone-changing `gdal.Warp` (lines 146-152), `resample` the
resolution-only `gdal.Warp` (lines 157-159), `link` the `os.symlink`
identity linkage (lines 161-163). -/
inductive ReprojAction where
  | warp
  | resample
  | link
deriving DecidableEq, Repr

/-- Python `my_zone != home_zone` where `my_zone` may be `None`:
`None` differs from every number. -/
def zoneDiffers (z : Option ℤ) (home : ℚ) : Bool :=
  match z with
  | none => true
  | some v => decide ((v : ℚ) ≠ home)

/-- composite.py lines 140-163, the decision taken for one file:
reproject when the zone differs; otherwise compare `x < pix_size` —
where `x` is the raster's width in samples as returned by
`saa.read_gdal_file_geo` (line 155), not its pixel width — and
resample when it is smaller, else symlink. -/
def file_action (home_zone pix_size : ℚ) (f : RasterInfo) : ReprojAction :=
  if zoneDiffers f.zone home_zone then .warp
  else if f.x_size < pix_size then .resample
  else .link

/-- The same-zone decision as the spec words it (§4.2 step 3): compare
the raster's *native pixel size* against the target pixel size;
resample when finer, identity-link when it coincides or exceeds. -/
def file_action_spec (home_zone pix_size : ℚ) (f : RasterInfo) : ReprojAction :=
  if zoneDiffers f.zone home_zone then .warp
  else if f.pixel_width < pix_size then .resample
  else .link

/-- composite.py lines 116-167 (`reproject_to_median_utm`): `None` for
fewer than two files (line 120-121); otherwise the per-file decisions
against the median home zone and the picked pixel size. -/
def reproject_to_median_utm (files : List RasterInfo) (resolution : Option ℚ) :
    Option (List ReprojAction) :=
  if files.length < 2 then none
  else
    some (files.map
      (file_action (npMedian (parse_zones files)) (pick_pix_size resolution files)))

/-- How `make_composite` leaves its resampling phase: `typeError`
models the uncaught `TypeError` Python raises at line 187 when
`len(resampled_files)` is applied to the `None` returned for fewer than
two files — the process aborts before any output is written;
`resampleError` is the (unreachable) coded branch at lines 188-189. -/
inductive RunError where
  | typeError
  | resampleError
deriving DecidableEq, Repr

/-- composite.py lines 186-189: `resampled_files =
reproject_to_median_utm(infiles, resolution)` followed by the
`len(resampled_files) == 0` check. -/
def make_composite_resample (files : List RasterInfo) (resolution : Option ℚ) :
    Except RunError (List ReprojAction) :=
  match reproject_to_median_utm files resolution with
  | none => .error .typeError
  | some fs => if fs.length = 0 then .error .resampleError else .ok fs

/-- C8: with fewer than two usable input rasters,
`reproject_to_median_utm` returns the "nothing to merge" result `None`,
and `make_composite` hits a fatal error state on it (the `None` crashes
the `len(...)` check), so the run aborts before any output is
written. -/
theorem fewer_than_two_inputs_abort (files : List RasterInfo)
    (resolution : Option ℚ) (h : files.length < 2) :
    reproject_to_median_utm files resolution = none ∧
    make_composite_resample files resolution = .error .typeError := by
  have hr : reproject_to_median_utm files resolution = none := by
    unfold reproject_to_median_utm
    simp [h]
  refine ⟨hr, ?_⟩
  unfold make_composite_resample
  rw [hr]

/-- Witness for C8: a single input raster aborts the run. -/
theorem fewer_than_two_inputs_abort_witness :
    reproject_to_median_utm [⟨100, 100, 30, some 12⟩] none = none ∧
    make_composite_resample [⟨100, 100, 30, some 12⟩] none =
      .error .typeError :=
  fewer_than_two_inputs_abort [⟨100, 100, 30, some 12⟩] none (by norm_num)

/-- C5 fails on the code: for a raster already in the target zone the
source compares the raster's sample count `x` (here 1000) against the
target pixel size (30), not its native pixel width (10).  The claim
calls for resampling (10 < 30); the code symlinks because 1000 < 30 is
false. -/
theorem same_zone_resolution_check_bug :
    file_action 12 30 ⟨1000, 1000, 10, some 12⟩ = ReprojAction.link ∧
    file_action_spec 12 30 ⟨1000, 1000, 10, some 12⟩ = ReprojAction.resample := by
  constructor <;> norm_num [file_action, file_action_spec, zoneDiffers]

/-- C9 fails as universally stated: an explicitly supplied resolution of
0.0 is Python-falsy, so `if resolution:` ignores it and the maximum
pixel width (30) is used instead of the supplied value. -/
theorem pick_pix_size_counterexample :
    pick_pix_size (some 0)
        [⟨100, 100, 30, some 12⟩, ⟨100, 100, 20, some 12⟩] = 30 ∧
    (30 : ℚ) ≠ 0 := by
  constructor
  · norm_num [pick_pix_size, get_max_pixel_size]
  · norm_num

/-- C9 (amended): the target pixel size is the supplied resolution
whenever that resolution is nonzero; when no resolution is supplied —
or a zero one, which Python truthiness treats as absent — it is
`get_max_pixel_size`, which on a non-empty file list whose pixel widths
are all at least the fold's initial value -999 is exactly the maximum
pixel width over the inputs. -/
theorem pick_pix_size_spec (resolution : Option ℚ) (files : List RasterInfo)
    (hne : files ≠ []) (hb : ∀ f ∈ files, -999 ≤ f.pixel_width) :
    (∀ r : ℚ, resolution = some r → r ≠ 0 →
      pick_pix_size resolution files = r) ∧
    ((resolution = none ∨ resolution = some 0) →
      pick_pix_size resolution files = get_max_pixel_size files ∧
      get_max_pixel_size files ∈ files.map RasterInfo.pixel_width ∧
      ∀ f ∈ files, f.pixel_width ≤ get_max_pixel_size files) := by
  have hmax : get_max_pixel_size files ∈ files.map RasterInfo.pixel_width ∧
      ∀ f ∈ files, f.pixel_width ≤ get_max_pixel_size files := by
    have hcomm : (fun (p : ℚ) (f : RasterInfo) => max p f.pixel_width) =
        fun p f => max f.pixel_width p := by
      funext p f
      exact max_comm p f.pixel_width
    unfold get_max_pixel_size
    rw [hcomm]
    exact foldl_max_exact RasterInfo.pixel_width files (-999) hne hb
  refine ⟨?_, ?_⟩
  · intro r hres hr
    subst hres
    simp [pick_pix_size, hr]
  · intro hres
    rcases hres with rfl | rfl
    · exact ⟨rfl, hmax⟩
    · exact ⟨by simp [pick_pix_size], hmax⟩

/-- Witness for C9: a nonzero supplied resolution (25) is used as-is,
and with no resolution the maximum pixel width (30) of two concrete
rasters is used. -/
theorem pick_pix_size_spec_witness :
    pick_pix_size (some 25)
        [⟨100, 100, 30, some 12⟩, ⟨100, 100, 20, some 12⟩] = 25 ∧
    pick_pix_size none [⟨100, 100, 30, some 12⟩, ⟨100, 100, 20, some 12⟩] =
      get_max_pixel_size [⟨100, 100, 30, some 12⟩, ⟨100, 100, 20, some 12⟩] := by
  have h1 := pick_pix_size_spec (some 25)
    [⟨100, 100, 30, some 12⟩, ⟨100, 100, 20, some 12⟩]
    (by simp)
    (by intro f hf; simp at hf; rcases hf with rfl | rfl <;> norm_num)
  have h2 := pick_pix_size_spec none
    [⟨100, 100, 30, some 12⟩, ⟨100, 100, 20, some 12⟩]
    (by simp)
    (by intro f hf; simp at hf; rcases hf with rfl | rfl <;> norm_num)
  exact ⟨h1.1 25 rfl (by norm_num), (h2.2 (Or.inl rfl)).1⟩

/-! ## Polarization filter and area-map pairing (C4)

Filenames are modelled as their character lists; Python's `in`
substring operator and `str.replace` are embedded directly. -/

def strStartsWith : List Char → List Char → Bool
  | _, [] => true
  | [], _ :: _ => false
  | c :: cs, p :: ps => c == p && strStartsWith cs ps

/-- Python's `pat in s` substring test. -/
def strIn (pat : List Char) : List Char → Bool
  | [] => pat.isEmpty
  | c :: cs => strStartsWith (c :: cs) pat || strIn pat cs

/-- Recursion worker for `strReplace`; the fuel argument only bounds
the recursion depth (each step consumes at least one character, so fuel
equal to the string length never runs out). -/
def strReplaceFuel : Nat → List Char → List Char → List Char → List Char
  | 0, s, _, _ => s
  | fuel + 1, s, pat, repl =>
    match s with
    | [] => []
    | c :: cs =>
      if pat ≠ [] ∧ strStartsWith (c :: cs) pat = true then
        repl ++ strReplaceFuel fuel ((c :: cs).drop pat.length) pat repl
      else
        c :: strReplaceFuel fuel cs pat repl

/-- Python's `s.replace(pat, repl)` for a non-empty pattern: replace
every non-overlapping occurrence, scanning left to right. -/
def strReplace (s pat repl : List Char) : List Char :=
  strReplaceFuel s.length s pat repl

/-- composite.py line 217: the Weighted Accumulator's file filter is
literally `if "VV" in fi` — the hard-coded string "VV", not the
requested polarization. -/
def accumulatorSelects (fi : List Char) : Bool :=
  strIn ("VV".toList) fi

/-- composite.py line 222: the accumulator's area-map pairing,
literally `fi.replace("_flat_VV_reproj", "_area_map_reproj")`. -/
def areaMapReprojName (fi : List Char) : List Char :=
  strReplace fi ("_flat_VV_reproj".toList) ("_area_map_reproj".toList)

/-- composite.py line 143: the reprojector's area-map pairing,
literally `fi.replace("_flat_VV.tif", "_area_map.tif")`. -/
def areaMapName (fi : List Char) : List Char :=
  strReplace fi ("_flat_VV.tif".toList) ("_area_map.tif".toList)

/-- C4 fails on the code for any requested polarization other than VV:
with `requested_pol = "VH"`, the aligned VH raster
`S1A_flat_VH_reproj.tif` is *not* selected by the accumulator (its
filter tests the literal "VV"), although "VH" does occur in the name;
the pairing substitutions likewise replace only the literal
`_flat_VV`, leaving a VH filename unchanged, while a VV filename is
selected and paired as the claim describes. -/
theorem requested_pol_ignored :
    accumulatorSelects ("S1A_flat_VH_reproj.tif".toList) = false ∧
    strIn ("VH".toList) ("S1A_flat_VH_reproj.tif".toList) = true ∧
    accumulatorSelects ("S1A_flat_VV_reproj.tif".toList) = true ∧
    areaMapReprojName ("S1A_flat_VH_reproj.tif".toList) =
      "S1A_flat_VH_reproj.tif".toList ∧
    areaMapReprojName ("S1A_flat_VV_reproj.tif".toList) =
      "S1A_area_map_reproj.tif".toList ∧
    areaMapName ("S1A_flat_VH.tif".toList) = "S1A_flat_VH.tif".toList := by
  decide

end Composite
